import Mathlib

/-!
Verification of the aws-to-slack Lambda dispatch engine (src/index.js).

The embedding models JavaScript values shallowly, the parser chain as a
list of named functions, and the Lambda handler as a pure function that
records its observable behaviour: the callback outcome, the diagnostics
written to the console, the messages passed to the Slack sink, the events
passed to the dispatch engine, and the parsers actually invoked.
-/

/-- JavaScript-like runtime values, shallowly embedding the shapes the
handler manipulates: `null`, `undefined`, booleans, numbers, strings,
arrays and plain objects (ordered field lists with unique keys). -/
inductive JSVal where
  | null
  | undefined
  | bool (b : Bool)
  | num (n : Int)
  | str (s : String)
  | arr (elems : List JSVal)
  | obj (fields : List (String × JSVal))
deriving Repr

/-- JavaScript truthiness of a value (`if (message)` in processEvent). -/
def truthy : JSVal → Bool
  | .null => false
  | .undefined => false
  | .bool b => b
  | .num n => n != 0
  | .str s => s.length != 0
  | .arr _ => true
  | .obj _ => true

/-- lodash `_.isEmpty` restricted to the JSVal universe: strings, arrays and
objects are empty when they have no elements; `null`, `undefined`, booleans
and numbers are not collections, and lodash reports them all as empty. -/
def isEmpty : JSVal → Bool
  | .null => true
  | .undefined => true
  | .bool _ => true
  | .num _ => true
  | .str s => s.length == 0
  | .arr xs => xs.isEmpty
  | .obj fs => fs.isEmpty

/-- Strict equality with the boolean literal `true` (`message === true`). -/
def isTrueLit : JSVal → Bool
  | .bool true => true
  | _ => false

/-- Property access `v[k]`: throws a TypeError when the receiver is `null`
or `undefined`, looks the key up on an object, and yields `undefined` on
every other receiver (primitives and arrays carry no modelled fields). -/
def getField : JSVal → String → Except String JSVal
  | .null, k => .error ("TypeError: cannot read properties of null (reading " ++ k ++ ")")
  | .undefined, k => .error ("TypeError: cannot read properties of undefined (reading " ++ k ++ ")")
  | .obj fs, k => .ok ((List.lookup k fs).getD JSVal.undefined)
  | _, _ => .ok JSVal.undefined

/-- Key update with `Object.assign` semantics: an existing key keeps its
position and gets the new value; a missing key is appended at the end. -/
def setKey : List (String × JSVal) → String → JSVal → List (String × JSVal)
  | [], k, v => [(k, v)]
  | (k0, v0) :: rest, k, v =>
    if k0 = k then (k, v) :: rest else (k0, v0) :: setKey rest k v

/-- `_.assign(\x7b\x7d, event, \x7b Records: v \x7d)`: a fresh shallow copy of the
event with its `Records` field replaced. The non-object branch is
unreachable from the handler (the fan-out runs only when `event.Records`
is an array, which requires an object receiver). -/
def assignRecords : JSVal → JSVal → JSVal
  | .obj fs, v => .obj (setKey fs "Records" v)
  | _, v => .obj [("Records", v)]

/-- One entry of the ordered parser chain: the descriptor name together
with the combined effect of `new Parser()` followed by
`await parser.parse(event)`; `Except.error` models a throw raised by
either step, both of which the engine catches in the same `try`. -/
structure ParserSpec where
  name : String
  run : JSVal → Except String JSVal

/-- Console output of one handler run, one constructor per `console.log`
or `console.error` site in src/index.js. -/
inductive Diag where
  | incoming (event : JSVal)
  | jsonFail (raw : String)
  | parserFail (name : String) (err : String)
  | sendingSns (name : String) (msg : JSVal)
  | forceIgnoreSns (idx : Nat) (lastName : String)
  | noMatchSns (idx : Nat)
  | sending (name : String) (msg : JSVal)
  | forceIgnore (printedName : Option String)
  | noMatch
  | topError (err : String)
deriving Repr

/-- The three ways `processEvent` can come back to its caller: the parser
object carrying `slackMessage` and `name`, the explicit `return null` on a
truthy-but-empty message, or the implicit `undefined` when the loop runs
out of parsers. -/
inductive PEOut where
  | matched (msg : JSVal) (name : String)
  | suppressed
  | exhausted
deriving Repr

/-- Observable outcome of one `processEvent` call: the returned value, the
value of `this.lastParser` afterwards, the diagnostics written, and the
parsers constructed and run, in order. -/
structure PEResult where
  out : PEOut
  lastP : Option String
  diags : List Diag
  invoked : List String
deriving Repr

/-- The `for (const i in this.parsers)` loop of `processEvent`:
`this.lastParser` is set before the `try`, the parser is constructed and
run, a throw is logged and treated as no-match, a truthy message that is
`=== true` or lodash-empty returns `null`, any other truthy message
returns the parser, and a falsy message continues the loop. -/
def processEventLoop (ps : List ParserSpec) (event : JSVal) (lastP : Option String) : PEResult :=
  match ps with
  | [] => { out := .exhausted, lastP := lastP, diags := [], invoked := [] }
  | p :: rest =>
    match p.run event with
    | .error e =>
      let r := processEventLoop rest event (some p.name)
      { r with diags := Diag.parserFail p.name e :: r.diags, invoked := p.name :: r.invoked }
    | .ok message =>
      if truthy message then
        if isTrueLit message || isEmpty message then
          { out := .suppressed, lastP := some p.name, diags := [], invoked := [p.name] }
        else
          { out := .matched message p.name, lastP := some p.name, diags := [], invoked := [p.name] }
      else
        let r := processEventLoop rest event (some p.name)
        { r with invoked := p.name :: r.invoked }

/-- `LambdaHandler.processEvent`, entered with the handler's current
`this.lastParser` (set to `null` by the constructor and not reset between
calls on the same instance). -/
def processEvent (ps : List ParserSpec) (event : JSVal) (lastP0 : Option String) : PEResult :=
  processEventLoop ps event lastP0

/-- Observable outcome of one `LambdaHandler.handler` invocation:
`callbackErr` is `some e` when `callback(e)` ran and `none` when
`callback()` ran; `sinkCalls` lists the messages passed to
`Slack.postMessage` in order; `dispatched` lists the events passed to
`processEvent` in order; `invoked` lists every parser invocation of the
whole run. -/
structure HandlerRun where
  callbackErr : Option String
  diags : List Diag
  sinkCalls : List JSVal
  dispatched : List JSVal
  invoked : List String
deriving Repr

/-- The multi-record branch of `handler`: each record is copied into a
derived event via `assignRecords`, dispatched, and its result consumed at
once; a sink throw escapes to the outer catch, so the remaining records
are not processed. The handler instance is shared, so `this.lastParser`
is threaded from one record to the next. -/
def fanoutLoop (ps : List ParserSpec) (sink : JSVal → Except String Unit)
    (event : JSVal) (records : List JSVal) (idx : Nat) (lastP : Option String) : HandlerRun :=
  match records with
  | [] => { callbackErr := none, diags := [], sinkCalls := [], dispatched := [], invoked := [] }
  | r :: rest =>
    let singleRecordEvent := assignRecords event (JSVal.arr [r])
    let pe := processEvent ps singleRecordEvent lastP
    match pe.out with
    | .matched msg name =>
      match sink msg with
      | .ok _ =>
        let k := fanoutLoop ps sink event rest (idx + 1) pe.lastP
        { callbackErr := k.callbackErr
          diags := pe.diags ++ [Diag.sendingSns name msg] ++ k.diags
          sinkCalls := msg :: k.sinkCalls
          dispatched := singleRecordEvent :: k.dispatched
          invoked := pe.invoked ++ k.invoked }
      | .error e =>
        { callbackErr := some e
          diags := pe.diags ++ [Diag.sendingSns name msg, Diag.topError e]
          sinkCalls := [msg]
          dispatched := [singleRecordEvent]
          invoked := pe.invoked }
    | _ =>
      let tailDiag := match pe.lastP with
        | some n => Diag.forceIgnoreSns idx n
        | none => Diag.noMatchSns idx
      let k := fanoutLoop ps sink event rest (idx + 1) pe.lastP
      { callbackErr := k.callbackErr
        diags := pe.diags ++ [tailDiag] ++ k.diags
        sinkCalls := k.sinkCalls
        dispatched := singleRecordEvent :: k.dispatched
        invoked := pe.invoked ++ k.invoked }

/-- The single-event branch of `handler`. In the force-ignore log line the
source interpolates `handler.parserName`, which is not a field of
`LambdaHandler` (its fields are `parsers`, `parserNames` and `lastParser`),
so the printed name is `undefined`, modelled as `none`. -/
def singleDispatch (ps : List ParserSpec) (sink : JSVal → Except String Unit)
    (event : JSVal) : HandlerRun :=
  let pe := processEvent ps event none
  match pe.out with
  | .matched msg name =>
    match sink msg with
    | .ok _ =>
      { callbackErr := none
        diags := pe.diags ++ [Diag.sending name msg]
        sinkCalls := [msg]
        dispatched := [event]
        invoked := pe.invoked }
    | .error e =>
      { callbackErr := some e
        diags := pe.diags ++ [Diag.sending name msg, Diag.topError e]
        sinkCalls := [msg]
        dispatched := [event]
        invoked := pe.invoked }
  | _ =>
    let tailDiag := match pe.lastP with
      | some _ => Diag.forceIgnore none
      | none => Diag.noMatch
    { callbackErr := none
      diags := pe.diags ++ [tailDiag]
      sinkCalls := []
      dispatched := [event]
      invoked := pe.invoked }

/-- The `try \x7b ... \x7d catch (e) \x7b callback(e) \x7d` body of `handler`: reading
`event.Records` throws on a `null` or `undefined` event; a multi-element
array takes the fan-out branch; anything else dispatches the event as-is. -/
def handlerCore (ps : List ParserSpec) (sink : JSVal → Except String Unit)
    (event : JSVal) : HandlerRun :=
  match getField event "Records" with
  | .error e =>
    { callbackErr := some e, diags := [Diag.topError e]
      sinkCalls := [], dispatched := [], invoked := [] }
  | .ok recs =>
    match recs with
    | .arr rs =>
      if rs.length > 1 then fanoutLoop ps sink event rs 0 none
      else singleDispatch ps sink event
    | _ => singleDispatch ps sink event

/-- The string-normalization prefix of `handler`: a string event is passed
to `JSON.parse` (modelled by the external `jp`); on success the decoded
value becomes the event, on failure a diagnostic is logged and the
original string is kept; a non-string event is used unchanged. -/
def normalizeEvent (jp : String → Except String JSVal) (event : JSVal) : JSVal × List Diag :=
  match event with
  | .str s =>
    match jp s with
    | .ok v => (v, [])
    | .error _ => (JSVal.str s, [Diag.jsonFail s])
  | e => (e, [])

/-- `LambdaHandler.handler`: log the incoming message, normalize a string
payload, then run the guarded body. `jp` models the runtime `JSON.parse`
and `sink` models `Slack.postMessage`. -/
def handler (ps : List ParserSpec) (jp : String → Except String JSVal)
    (sink : JSVal → Except String Unit) (event0 : JSVal) : HandlerRun :=
  let n := normalizeEvent jp event0
  let core := handlerCore ps sink n.1
  { core with diags := Diag.incoming event0 :: n.2 ++ core.diags }

/-- A parser attempt that neither matches nor suppresses: it either threw
or returned a falsy value, so the loop moves on. -/
def declines (r : Except String JSVal) : Prop :=
  match r with
  | .error _ => True
  | .ok w => truthy w = false

/-- An always-declining classifier with a given name: its parse returns
`undefined`, the canonical falsy no-match value. -/
def declinerNamed (n : String) : ParserSpec :=
  { name := n, run := fun _ => .ok JSVal.undefined }

/-- Modelled from the spec: a "structurally empty mapping/sequence"
(section 9 pins "empty" to exactly this) — an object or array with no
elements; values of any other shape are not structurally empty. -/
def structEmpty : JSVal → Bool
  | .arr xs => xs.isEmpty
  | .obj fs => fs.isEmpty
  | _ => false

/-- Modelled from the spec: a parse result that the spec classifies as
Matched — a truthy value that is neither the literal `true` nor a
structurally empty mapping/sequence ("non-empty, non-true value V"). -/
def specMatchedValue (v : JSVal) : Prop :=
  truthy v = true ∧ isTrueLit v = false ∧ structEmpty v = false

/-- Modelled from the spec: the list of events the fan-out (spec 4.3) is
required to dispatch for a given event object — one derived single-record
event per record when `Records` has more than one element, otherwise the
event as-is. -/
def fanoutPlan (fs : List (String × JSVal)) : List JSVal :=
  match List.lookup "Records" fs with
  | some (JSVal.arr rs) =>
    if rs.length > 1 then
      rs.map (fun r => JSVal.obj (setKey fs "Records" (JSVal.arr [r])))
    else [JSVal.obj fs]
  | _ => [JSVal.obj fs]

/-! Concrete parser chains, sinks and payloads used by counterexamples and
witnesses. -/

/-- A classifier that declines every event by returning `null`. -/
def declineNull : ParserSpec := { name := "cloudwatch", run := fun _ => .ok JSVal.null }

/-- A classifier that matches every event with a non-empty message. -/
def matchText : ParserSpec :=
  { name := "codebuild", run := fun _ => .ok (JSVal.obj [("text", JSVal.str "hi")]) }

/-- A classifier placed after the matching one; it would suppress if it
were ever reached. -/
def neverReached : ParserSpec := { name := "generic", run := fun _ => .ok (JSVal.bool true) }

/-- A classifier whose construction/parse throws. -/
def faultyRds : ParserSpec := { name := "rds", run := fun _ => .error "boom" }

/-- A classifier returning the number 5: truthy, not `true`, not a mapping
or sequence — but lodash-empty. -/
def numericChain : List ParserSpec :=
  [{ name := "numeric", run := fun _ => .ok (JSVal.num 5) }]

/-- A one-element chain that suppresses via an empty object. -/
def suppressingChain : List ParserSpec :=
  [{ name := "codebuild", run := fun _ => .ok (JSVal.obj []) }]

/-- A chain in which every classifier declines. -/
def allDeclineChain : List ParserSpec :=
  [{ name := "cloudwatch", run := fun _ => .ok JSVal.null },
   { name := "generic", run := fun _ => .ok JSVal.undefined }]

/-- A catch-all chain that forwards a fixed message for any event. -/
def matchAllChain : List ParserSpec :=
  [{ name := "generic", run := fun _ => .ok (JSVal.obj [("text", JSVal.str "m")]) }]

/-- A JSON.parse stand-in for runs whose event is not a string. -/
def jpUnused : String → Except String JSVal := fun _ => .error "not reached"

/-- A JSON.parse stand-in that decodes the text null and rejects the rest. -/
def jpNullOnly : String → Except String JSVal := fun s =>
  if s = "null" then .ok JSVal.null else .error "invalid JSON"

/-- A JSON.parse stand-in that decodes the text 42 and rejects the rest. -/
def jpToy : String → Except String JSVal := fun s =>
  if s = "42" then .ok (JSVal.num 42) else .error "invalid JSON"

/-- A sink whose delivery always succeeds. -/
def sinkOk : JSVal → Except String Unit := fun _ => .ok ()

/-- A sink whose delivery always fails. -/
def sinkDown : JSVal → Except String Unit := fun _ => .error "sink down"

/-- Fields of an event carrying two records. -/
def twoRecFields : List (String × JSVal) :=
  [("Records", JSVal.arr [JSVal.num 1, JSVal.num 2]), ("src", JSVal.str "sns")]

/-- The two-record event itself. -/
def twoRecEvent : JSVal := JSVal.obj twoRecFields

/-- The handler run behind the C2 failing input: a single (no fan-out)
event suppressed by the codebuild classifier. -/
def c2Run : HandlerRun :=
  handler suppressingChain jpUnused sinkOk (JSVal.obj [("x", JSVal.num 1)])

/-- The handler run behind the C4 counterexample: two records, a matching
chain, and a failing sink. -/
def c4Run : HandlerRun := handler matchAllChain jpUnused sinkDown twoRecEvent

/-- The handler run behind the C5 failing input: every classifier
declines. -/
def c5Run : HandlerRun := handler allDeclineChain jpUnused sinkOk (JSVal.obj [])

/-- The handler run behind the C7 counterexample: a null event, so the
Records access throws before any delivery is attempted. -/
def c7Run : HandlerRun := handler allDeclineChain jpUnused sinkOk JSVal.null

/-! Helper lemmas about the dispatch loop. -/

/-- A declining head parser is stepped over: the loop result is that of the
tail, entered with `lastParser` set to the head's name. -/
theorem peLoop_out_decline (q : ParserSpec) (rest : List ParserSpec) (event : JSVal)
    (lp : Option String) (hq : declines (q.run event)) :
    (processEventLoop (q :: rest) event lp).out
      = (processEventLoop rest event (some q.name)).out := by
  cases hrun : q.run event with
  | error e => simp [processEventLoop, hrun]
  | ok w =>
    rw [hrun] at hq
    simp only [declines] at hq
    simp [processEventLoop, hrun, hq]

/-- A declining head parser still counts as invoked, first. -/
theorem peLoop_invoked_decline (q : ParserSpec) (rest : List ParserSpec) (event : JSVal)
    (lp : Option String) (hq : declines (q.run event)) :
    (processEventLoop (q :: rest) event lp).invoked
      = q.name :: (processEventLoop rest event (some q.name)).invoked := by
  cases hrun : q.run event with
  | error e => simp [processEventLoop, hrun]
  | ok w =>
    rw [hrun] at hq
    simp only [declines] at hq
    simp [processEventLoop, hrun, hq]

/-- A declining head parser leaves the final `lastParser` to the tail. -/
theorem peLoop_lastP_decline (q : ParserSpec) (rest : List ParserSpec) (event : JSVal)
    (lp : Option String) (hq : declines (q.run event)) :
    (processEventLoop (q :: rest) event lp).lastP
      = (processEventLoop rest event (some q.name)).lastP := by
  cases hrun : q.run event with
  | error e => simp [processEventLoop, hrun]
  | ok w =>
    rw [hrun] at hq
    simp only [declines] at hq
    simp [processEventLoop, hrun, hq]

/-- Diagnostics of the tail survive a declining head parser. -/
theorem peLoop_diags_decline_mem (q : ParserSpec) (rest : List ParserSpec) (event : JSVal)
    (lp : Option String) (d : Diag) (hq : declines (q.run event))
    (hd : d ∈ (processEventLoop rest event (some q.name)).diags) :
    d ∈ (processEventLoop (q :: rest) event lp).diags := by
  cases hrun : q.run event with
  | error e =>
    simp only [processEventLoop, hrun]
    exact List.mem_cons_of_mem _ hd
  | ok w =>
    rw [hrun] at hq
    simp only [declines] at hq
    simpa [processEventLoop, hrun, hq] using hd

/-- Claim C8 (confirmed). Idempotence/determinism of dispatch: with the
side-effect-free classifiers of the embedding, running `processEvent` a
second time on the same Event — the second call entering with whatever
`this.lastParser` the first call left behind, the only state the handler
object mutates — produces the same outcome, the same diagnostics and the
same invocation sequence as the first call. -/
theorem c8_dispatch_deterministic (ps : List ParserSpec) (event : JSVal) (lp0 : Option String) :
    ((processEvent ps event (processEvent ps event lp0).lastP).out
        = (processEvent ps event lp0).out)
      ∧ ((processEvent ps event (processEvent ps event lp0).lastP).diags
          = (processEvent ps event lp0).diags)
      ∧ ((processEvent ps event (processEvent ps event lp0).lastP).invoked
          = (processEvent ps event lp0).invoked) := by
  cases ps with
  | nil => exact ⟨rfl, rfl, rfl⟩
  | cons p rest => exact ⟨rfl, rfl, rfl⟩

/-- Claim C1, counterexample. A classifier whose parse returns the number
5 returns a truthy value that is neither `true` nor a structurally empty
mapping/sequence, so by the claim the dispatch should forward 5; the code
instead suppresses, because lodash isEmpty also holds of numbers. -/
theorem c1_counterexample :
    specMatchedValue (JSVal.num 5)
      ∧ (processEvent numericChain (JSVal.obj []) none).out = PEOut.suppressed := by
  constructor
  · exact ⟨by decide, by decide, by decide⟩
  · rfl

/-- Claim C1 (amended: "non-empty" in the lodash sense, which also counts
numbers and booleans as empty). If every classifier before `p` declines
(throws or returns a falsy value) and `p`'s parse returns a truthy value
`v` that is not `=== true` and not lodash-empty, then `processEvent`
returns the matched outcome carrying exactly `v` and `p`'s name, and the
classifiers after `p` are never invoked. -/
theorem c1_first_match_forwarding (pre post : List ParserSpec) (p : ParserSpec)
    (event : JSVal) (lp : Option String) (v : JSVal)
    (hpre : ∀ q ∈ pre, declines (q.run event))
    (hv : p.run event = Except.ok v)
    (ht : truthy v = true) (hnt : isTrueLit v = false) (hne : isEmpty v = false) :
    ((processEvent (pre ++ p :: post) event lp).out = PEOut.matched v p.name)
      ∧ ((processEvent (pre ++ p :: post) event lp).invoked
          = pre.map ParserSpec.name ++ [p.name]) := by
  induction pre generalizing lp with
  | nil =>
    constructor
    · show (processEventLoop (p :: post) event lp).out = _
      simp [processEventLoop, hv, ht, hnt, hne]
    · show (processEventLoop (p :: post) event lp).invoked = _
      simp [processEventLoop, hv, ht, hnt, hne]
  | cons q qs ih =>
    have hq : declines (q.run event) := hpre q (by simp)
    have hqs : ∀ r ∈ qs, declines (r.run event) := fun r hr => hpre r (by simp [hr])
    have ihr := ih (some q.name) hqs
    constructor
    · show (processEventLoop (q :: (qs ++ p :: post)) event lp).out = _
      rw [peLoop_out_decline q _ event lp hq]
      exact ihr.1
    · show (processEventLoop (q :: (qs ++ p :: post)) event lp).invoked = _
      rw [peLoop_invoked_decline q _ event lp hq]
      rw [show (processEventLoop (qs ++ p :: post) event (some q.name)).invoked
            = qs.map ParserSpec.name ++ [p.name] from ihr.2]
      simp

/-- Witness for C1: a declining classifier, then a matching one, then a
would-be suppressor that is never reached. -/
theorem c1_first_match_forwarding_witness :
    ((processEvent [declineNull, matchText, neverReached] (JSVal.obj []) none).out
        = PEOut.matched (JSVal.obj [("text", JSVal.str "hi")]) "codebuild")
      ∧ ((processEvent [declineNull, matchText, neverReached] (JSVal.obj []) none).invoked
          = ["cloudwatch", "codebuild"]) := by
  have h := c1_first_match_forwarding [declineNull] [neverReached] matchText (JSVal.obj []) none
      (JSVal.obj [("text", JSVal.str "hi")])
      (fun q hq => by
        rw [List.mem_singleton] at hq
        subst hq
        exact (rfl : truthy JSVal.null = false))
      rfl rfl rfl rfl
  exact h

/-- Claim C2 (code bug). On a single (non-fan-out) event, suppression stops
the dispatch and the sink is never invoked, but the diagnostic does not
name the suppressing classifier: the log line interpolates
`handler.parserName`, a field that does not exist on `LambdaHandler`
(the name sits in `handler.lastParser`), so it prints `undefined`. -/
theorem c2_suppression_diagnostic_bug :
    ((processEvent suppressingChain (JSVal.obj [("x", JSVal.num 1)]) none).out
        = PEOut.suppressed)
      ∧ c2Run.sinkCalls = []
      ∧ c2Run.callbackErr = none
      ∧ c2Run.diags = [Diag.incoming (JSVal.obj [("x", JSVal.num 1)]), Diag.forceIgnore none]
      ∧ Diag.forceIgnore (some "codebuild") ∉ c2Run.diags := by
  refine ⟨rfl, rfl, rfl, rfl, ?_⟩
  intro hmem
  rw [show c2Run.diags
        = [Diag.incoming (JSVal.obj [("x", JSVal.num 1)]), Diag.forceIgnore none] from rfl] at hmem
  simp at hmem

/-- Claim C3 (confirmed). If the classifiers before `f` decline and `f`
throws, the dispatch outcome, the invocation sequence and the final
`lastParser` are exactly those of the chain with `f` replaced by an
always-declining classifier of the same name, and a diagnostic recording
`f`'s name and error is emitted. -/
theorem c3_classifier_fault_recovery (pre post : List ParserSpec) (f : ParserSpec)
    (event : JSVal) (lp : Option String) (err : String)
    (hpre : ∀ q ∈ pre, declines (q.run event))
    (hf : f.run event = Except.error err) :
    ((processEvent (pre ++ f :: post) event lp).out
        = (processEvent (pre ++ declinerNamed f.name :: post) event lp).out)
      ∧ ((processEvent (pre ++ f :: post) event lp).invoked
          = (processEvent (pre ++ declinerNamed f.name :: post) event lp).invoked)
      ∧ ((processEvent (pre ++ f :: post) event lp).lastP
          = (processEvent (pre ++ declinerNamed f.name :: post) event lp).lastP)
      ∧ Diag.parserFail f.name err ∈ (processEvent (pre ++ f :: post) event lp).diags := by
  induction pre generalizing lp with
  | nil =>
    refine ⟨?_, ?_, ?_, ?_⟩ <;>
      simp [processEvent, processEventLoop, hf, declinerNamed, truthy]
  | cons q qs ih =>
    have hq : declines (q.run event) := hpre q (by simp)
    have hqs : ∀ r ∈ qs, declines (r.run event) := fun r hr => hpre r (by simp [hr])
    have ihr := ih (some q.name) hqs
    refine ⟨?_, ?_, ?_, ?_⟩
    · show (processEventLoop (q :: (qs ++ f :: post)) event lp).out
          = (processEventLoop (q :: (qs ++ declinerNamed f.name :: post)) event lp).out
      rw [peLoop_out_decline q (qs ++ f :: post) event lp hq,
        peLoop_out_decline q (qs ++ declinerNamed f.name :: post) event lp hq]
      exact ihr.1
    · show (processEventLoop (q :: (qs ++ f :: post)) event lp).invoked
          = (processEventLoop (q :: (qs ++ declinerNamed f.name :: post)) event lp).invoked
      rw [peLoop_invoked_decline q (qs ++ f :: post) event lp hq,
        peLoop_invoked_decline q (qs ++ declinerNamed f.name :: post) event lp hq]
      exact congrArg (q.name :: ·) ihr.2.1
    · show (processEventLoop (q :: (qs ++ f :: post)) event lp).lastP
          = (processEventLoop (q :: (qs ++ declinerNamed f.name :: post)) event lp).lastP
      rw [peLoop_lastP_decline q (qs ++ f :: post) event lp hq,
        peLoop_lastP_decline q (qs ++ declinerNamed f.name :: post) event lp hq]
      exact ihr.2.2.1
    · exact peLoop_diags_decline_mem q _ event lp _ hq ihr.2.2.2

/-- Witness for C3: a decliner, then a throwing rds classifier, then a
matcher; the outcome equals that of the chain with rds declining, and the
throw is logged. -/
theorem c3_classifier_fault_recovery_witness :
    ((processEvent [declineNull, faultyRds, matchText] (JSVal.obj []) none).out
        = (processEvent [declineNull, declinerNamed "rds", matchText] (JSVal.obj []) none).out)
      ∧ Diag.parserFail "rds" "boom"
          ∈ (processEvent [declineNull, faultyRds, matchText] (JSVal.obj []) none).diags := by
  have h := c3_classifier_fault_recovery [declineNull] [matchText] faultyRds (JSVal.obj [])
      none "boom"
      (fun q hq => by
        rw [List.mem_singleton] at hq
        subst hq
        exact (rfl : truthy JSVal.null = false))
      rfl
  exact ⟨h.1, h.2.2.2⟩

/-- Each branch of the single-event path dispatches exactly the event
itself. -/
theorem singleDispatch_dispatched (ps : List ParserSpec) (sink : JSVal → Except String Unit)
    (event : JSVal) :
    (singleDispatch ps sink event).dispatched = [event] := by
  simp only [singleDispatch]
  split
  · split <;> rfl
  · rfl

/-- When every delivery succeeds, the fan-out loop dispatches one derived
event per record of the original event, in order. -/
theorem fanoutLoop_dispatched (ps : List ParserSpec) (sink : JSVal → Except String Unit)
    (hok : ∀ m, sink m = Except.ok ()) (event : JSVal) (rs : List JSVal)
    (idx : Nat) (lp : Option String) :
    (fanoutLoop ps sink event rs idx lp).dispatched
      = rs.map (fun r => assignRecords event (JSVal.arr [r])) := by
  induction rs generalizing idx lp with
  | nil => rfl
  | cons r rest ih =>
    simp only [fanoutLoop]
    split
    · rename_i msg name heq
      rw [hok msg]
      simp [ih]
    · simp [ih]

/-- Claim C4, counterexample. The claim promises one dispatch per record
unconditionally, but a failed delivery is thrown to the outer catch, so
with two records, a matching chain and a failing sink the chain runs only
once: record 1 is never dispatched. -/
theorem c4_counterexample :
    (List.lookup "Records" twoRecFields = some (JSVal.arr [JSVal.num 1, JSVal.num 2]))
      ∧ c4Run.dispatched.length = 1
      ∧ c4Run.dispatched.length ≠ 2
      ∧ c4Run.callbackErr = some "sink down" := by
  refine ⟨rfl, rfl, ?_, rfl⟩
  intro h
  rw [show c4Run.dispatched.length = 1 from rfl] at h
  simp at h

/-- Claim C4 (amended: provided every sink delivery succeeds — a failing
delivery aborts the remaining records). For an event object, the handler
dispatches exactly the events of `fanoutPlan`: one derived single-record
event per record, in original order, when `Records` is an array of length
> 1, and the event as-is otherwise. -/
theorem c4_fanout_once_per_record (ps : List ParserSpec) (jp : String → Except String JSVal)
    (sink : JSVal → Except String Unit) (fs : List (String × JSVal))
    (hok : ∀ m, sink m = Except.ok ()) :
    (handler ps jp sink (JSVal.obj fs)).dispatched = fanoutPlan fs := by
  show (handlerCore ps sink (JSVal.obj fs)).dispatched = fanoutPlan fs
  unfold handlerCore fanoutPlan
  simp only [getField]
  cases hrec : List.lookup "Records" fs with
  | none => simp [singleDispatch_dispatched]
  | some v =>
    cases v with
    | arr rs =>
      by_cases hlen : rs.length > 1
      · simp only [Option.getD, hlen, if_pos]
        rw [fanoutLoop_dispatched ps sink hok (JSVal.obj fs) rs 0 none]
        simp [assignRecords]
      · simp [Option.getD, hlen, singleDispatch_dispatched]
    | null => simp [singleDispatch_dispatched]
    | undefined => simp [singleDispatch_dispatched]
    | bool b => simp [singleDispatch_dispatched]
    | num n => simp [singleDispatch_dispatched]
    | str s => simp [singleDispatch_dispatched]
    | obj gs => simp [singleDispatch_dispatched]

/-- Witness for C4: the two-record event with an all-success sink is
dispatched as two derived single-record events, in order. -/
theorem c4_fanout_once_per_record_witness :
    ((handler matchAllChain jpUnused sinkOk (JSVal.obj twoRecFields)).dispatched
        = fanoutPlan twoRecFields)
      ∧ fanoutPlan twoRecFields
          = [JSVal.obj [("Records", JSVal.arr [JSVal.num 1]), ("src", JSVal.str "sns")],
             JSVal.obj [("Records", JSVal.arr [JSVal.num 2]), ("src", JSVal.str "sns")]] :=
  ⟨c4_fanout_once_per_record matchAllChain jpUnused sinkOk twoRecFields (fun _ => rfl), rfl⟩

/-- Claim C5 (code bug). When every classifier declines, no delivery is
attempted and the callback reports success, but the diagnostic emitted is
the force-ignoring one (with an undefined classifier name), not a "no
match" one: `handler.lastParser` is set by every attempted classifier, so
after exhaustion it holds the last classifier's name and the "No parser
matched event" branch is unreachable for a non-empty chain. -/
theorem c5_exhaustion_diagnostic_bug :
    ((processEvent allDeclineChain (JSVal.obj []) none).out = PEOut.exhausted)
      ∧ c5Run.sinkCalls = []
      ∧ c5Run.callbackErr = none
      ∧ c5Run.diags = [Diag.incoming (JSVal.obj []), Diag.forceIgnore none]
      ∧ Diag.noMatch ∉ c5Run.diags := by
  refine ⟨rfl, rfl, rfl, rfl, ?_⟩
  intro hmem
  rw [show c5Run.diags = [Diag.incoming (JSVal.obj []), Diag.forceIgnore none] from rfl] at hmem
  simp at hmem

/-- Claim C6 (confirmed). Ingestion normalization: a string payload that
JSON-decodes becomes the decoded Event; one that fails to decode is logged
as malformed and passed onward unchanged, with the run otherwise identical
to processing the raw string; a non-string payload is processed as-is. -/
theorem c6_ingestion_normalization (ps : List ParserSpec) (jp : String → Except String JSVal)
    (sink : JSVal → Except String Unit) :
    (∀ s v, jp s = Except.ok v →
        handler ps jp sink (JSVal.str s)
          = { handlerCore ps sink v with
              diags := Diag.incoming (JSVal.str s) :: (handlerCore ps sink v).diags })
      ∧ (∀ s e, jp s = Except.error e →
          handler ps jp sink (JSVal.str s)
            = { handlerCore ps sink (JSVal.str s) with
                diags := Diag.incoming (JSVal.str s) :: Diag.jsonFail s
                    :: (handlerCore ps sink (JSVal.str s)).diags })
      ∧ (∀ event, (∀ s, event ≠ JSVal.str s) →
          handler ps jp sink event
            = { handlerCore ps sink event with
                diags := Diag.incoming event :: (handlerCore ps sink event).diags }) := by
  refine ⟨?_, ?_, ?_⟩
  · intro s v hjp
    simp [handler, normalizeEvent, hjp]
  · intro s e hjp
    simp [handler, normalizeEvent, hjp]
  · intro event hnot
    cases event
    case str s => exact absurd rfl (hnot s)
    all_goals simp [handler, normalizeEvent]

/-- Witness for C6: a toy JSON.parse that decodes the text 42, applied to
a decodable string, an undecodable string, and a non-string event. -/
theorem c6_ingestion_normalization_witness :
    (handler [] jpToy sinkOk (JSVal.str "42")
        = { handlerCore [] sinkOk (JSVal.num 42) with
            diags := Diag.incoming (JSVal.str "42")
                :: (handlerCore [] sinkOk (JSVal.num 42)).diags })
      ∧ (handler [] jpToy sinkOk (JSVal.str "not json")
          = { handlerCore [] sinkOk (JSVal.str "not json") with
              diags := Diag.incoming (JSVal.str "not json") :: Diag.jsonFail "not json"
                  :: (handlerCore [] sinkOk (JSVal.str "not json")).diags })
      ∧ (handler [] jpToy sinkOk (JSVal.obj [])
          = { handlerCore [] sinkOk (JSVal.obj []) with
              diags := Diag.incoming (JSVal.obj [])
                  :: (handlerCore [] sinkOk (JSVal.obj [])).diags }) := by
  have h := c6_ingestion_normalization [] jpToy sinkOk
  exact ⟨h.1 "42" (JSVal.num 42) rfl,
    h.2.1 "not json" "invalid JSON" rfl,
    h.2.2 (JSVal.obj []) (fun s hs => JSVal.noConfusion hs)⟩

/-- In the single-event path, the callback receives an error exactly when
one of the attempted deliveries failed with that error. -/
theorem singleDispatch_err_iff (ps : List ParserSpec) (sink : JSVal → Except String Unit)
    (event : JSVal) (e : String) :
    ((singleDispatch ps sink event).callbackErr = some e
      ↔ ∃ m ∈ (singleDispatch ps sink event).sinkCalls, sink m = Except.error e) := by
  simp only [singleDispatch]
  split
  · rename_i msg name heq
    cases hsink : sink msg with
    | ok u => simp [hsink]
    | error e2 => simp [hsink]
  · simp

/-- In the fan-out path, the callback receives an error exactly when one
of the attempted deliveries failed with that error. -/
theorem fanoutLoop_err_iff (ps : List ParserSpec) (sink : JSVal → Except String Unit)
    (event : JSVal) (rs : List JSVal) (idx : Nat) (lp : Option String) (e : String) :
    ((fanoutLoop ps sink event rs idx lp).callbackErr = some e
      ↔ ∃ m ∈ (fanoutLoop ps sink event rs idx lp).sinkCalls, sink m = Except.error e) := by
  induction rs generalizing idx lp with
  | nil => simp [fanoutLoop]
  | cons r rest ih =>
    simp only [fanoutLoop]
    split
    · rename_i msg name heq
      cases hsink : sink msg with
      | ok u =>
        simp only [List.mem_cons]
        constructor
        · intro h
          obtain ⟨m, hm, hme⟩ := (ih (idx + 1) _).mp h
          exact ⟨m, Or.inr hm, hme⟩
        · rintro ⟨m, hm | hm, hme⟩
          · subst hm
            rw [hsink] at hme
            exact Except.noConfusion hme
          · exact (ih (idx + 1) _).mpr ⟨m, hm, hme⟩
      | error e2 => simp [hsink]
    · exact ih (idx + 1) _

/-- Over any event that is not `null` or `undefined`, the guarded handler
body fails exactly on a sink fault, with the sink's error. -/
theorem handlerCore_err_iff (ps : List ParserSpec) (sink : JSVal → Except String Unit)
    (event : JSVal) (e : String)
    (h1 : event ≠ JSVal.null) (h2 : event ≠ JSVal.undefined) :
    ((handlerCore ps sink event).callbackErr = some e
      ↔ ∃ m ∈ (handlerCore ps sink event).sinkCalls, sink m = Except.error e) := by
  cases event with
  | null => exact absurd rfl h1
  | undefined => exact absurd rfl h2
  | obj fs =>
    simp only [handlerCore, getField]
    split
    · split
      · exact fanoutLoop_err_iff ps sink (JSVal.obj fs) _ 0 none e
      · exact singleDispatch_err_iff ps sink (JSVal.obj fs) e
    · exact singleDispatch_err_iff ps sink (JSVal.obj fs) e
  | bool b => exact singleDispatch_err_iff ps sink (JSVal.bool b) e
  | num n => exact singleDispatch_err_iff ps sink (JSVal.num n) e
  | str s => exact singleDispatch_err_iff ps sink (JSVal.str s) e
  | arr xs => exact singleDispatch_err_iff ps sink (JSVal.arr xs) e

/-- Claim C7, counterexample. A `null` event makes the Records access
throw, so the invocation fails even though no delivery to the sink was
ever attempted — refuting "failure if and only if sink fault" as stated
for every input. -/
theorem c7_counterexample :
    c7Run.callbackErr = some "TypeError: cannot read properties of null (reading Records)"
      ∧ c7Run.sinkCalls = [] :=
  ⟨rfl, rfl⟩

/-- Claim C7 (amended: for every input whose normalized Event is neither
`null` nor `undefined`). The handler's callback receives an error exactly
when a delivery to the sink failed, and the error it receives is the
sink's error. -/
theorem c7_failure_iff_sink_fault (ps : List ParserSpec) (jp : String → Except String JSVal)
    (sink : JSVal → Except String Unit) (event0 : JSVal) (e : String)
    (h1 : (normalizeEvent jp event0).1 ≠ JSVal.null)
    (h2 : (normalizeEvent jp event0).1 ≠ JSVal.undefined) :
    ((handler ps jp sink event0).callbackErr = some e
      ↔ ∃ m ∈ (handler ps jp sink event0).sinkCalls, sink m = Except.error e) := by
  show ((handlerCore ps sink (normalizeEvent jp event0).1).callbackErr = some e
    ↔ ∃ m ∈ (handlerCore ps sink (normalizeEvent jp event0).1).sinkCalls, sink m = Except.error e)
  exact handlerCore_err_iff ps sink (normalizeEvent jp event0).1 e h1 h2

/-- Witness for C7: a failing sink on a matched object event makes the
callback fail with the sink's error; the failed delivery is in the log. -/
theorem c7_failure_iff_sink_fault_witness :
    (((handler matchAllChain jpUnused sinkDown (JSVal.obj [("x", JSVal.num 1)])).callbackErr
          = some "sink down"
        ↔ ∃ m ∈ (handler matchAllChain jpUnused sinkDown (JSVal.obj [("x", JSVal.num 1)])).sinkCalls,
            sinkDown m = Except.error "sink down")
      ∧ (handler matchAllChain jpUnused sinkDown (JSVal.obj [("x", JSVal.num 1)])).callbackErr
          = some "sink down"
      ∧ (handler matchAllChain jpUnused sinkDown (JSVal.obj [("x", JSVal.num 1)])).sinkCalls
          = [JSVal.obj [("text", JSVal.str "m")]]) :=
  ⟨c7_failure_iff_sink_fault matchAllChain jpUnused sinkDown (JSVal.obj [("x", JSVal.num 1)])
      "sink down"
      (fun h => JSVal.noConfusion h)
      (fun h => JSVal.noConfusion h),
    rfl, rfl⟩

/-- Claim C9 (confirmed). If the raw payload is a string that decodes to
`null` (or `undefined`), the access to the Event's Records field raises a
TypeError, the invocation fails with exactly that error, and no dispatch
or delivery is attempted. -/
theorem c9_null_event_aborts (ps : List ParserSpec) (jp : String → Except String JSVal)
    (sink : JSVal → Except String Unit) (s : String) (v : JSVal)
    (hjp : jp s = Except.ok v) (hv : v = JSVal.null ∨ v = JSVal.undefined) :
    (∃ e, getField v "Records" = Except.error e
        ∧ (handler ps jp sink (JSVal.str s)).callbackErr = some e)
      ∧ (handler ps jp sink (JSVal.str s)).sinkCalls = []
      ∧ (handler ps jp sink (JSVal.str s)).dispatched = [] := by
  have hnorm : normalizeEvent jp (JSVal.str s) = (v, []) := by
    simp [normalizeEvent, hjp]
  cases hv with
  | inl h =>
    subst h
    refine ⟨⟨"TypeError: cannot read properties of null (reading Records)", rfl, ?_⟩, ?_, ?_⟩ <;>
      simp [handler, hnorm, handlerCore, getField]
  | inr h =>
    subst h
    refine ⟨⟨"TypeError: cannot read properties of undefined (reading Records)", rfl, ?_⟩, ?_, ?_⟩ <;>
      simp [handler, hnorm, handlerCore, getField]

/-- Witness for C9: the raw text null under a JSON.parse stand-in that
decodes it. -/
theorem c9_null_event_aborts_witness :
    (∃ e, getField JSVal.null "Records" = Except.error e
        ∧ (handler matchAllChain jpNullOnly sinkOk (JSVal.str "null")).callbackErr = some e)
      ∧ (handler matchAllChain jpNullOnly sinkOk (JSVal.str "null")).sinkCalls = []
      ∧ (handler matchAllChain jpNullOnly sinkOk (JSVal.str "null")).dispatched = [] :=
  c9_null_event_aborts matchAllChain jpNullOnly sinkOk "null" JSVal.null rfl (Or.inl rfl)

/-- After `setKey fs k v`, looking up `k` yields `v`. -/
theorem lookup_setKey_self (fs : List (String × JSVal)) (k : String) (v : JSVal) :
    List.lookup k (setKey fs k v) = some v := by
  induction fs with
  | nil => simp [setKey, List.lookup]
  | cons kv rest ih =>
    obtain ⟨k0, v0⟩ := kv
    by_cases h : k0 = k
    · subst h
      simp [setKey, List.lookup]
    · have hb : (k == k0) = false := by
        simp only [beq_eq_false_iff_ne]
        exact fun he => h he.symm
      simp [setKey, h, List.lookup, hb, ih]

/-- `setKey fs k v` leaves every other key's binding unchanged. -/
theorem lookup_setKey_other (fs : List (String × JSVal)) (k k2 : String) (v : JSVal)
    (hne : k2 ≠ k) :
    List.lookup k2 (setKey fs k v) = List.lookup k2 fs := by
  induction fs with
  | nil =>
    have hb : (k2 == k) = false := by
      simp only [beq_eq_false_iff_ne]
      exact hne
    simp [setKey, List.lookup, hb]
  | cons kv rest ih =>
    obtain ⟨k0, v0⟩ := kv
    by_cases h : k0 = k
    · subst h
      have hb : (k2 == k0) = false := by
        simp only [beq_eq_false_iff_ne]
        exact hne
      simp [setKey, List.lookup, hb]
    · by_cases h2 : k2 = k0
      · subst h2
        simp [setKey, h, List.lookup]
      · have hb : (k2 == k0) = false := by
          simp only [beq_eq_false_iff_ne]
          exact h2
        simp [setKey, h, List.lookup, hb, ih]

/-- Claim C10 (confirmed). The fan-out derives every single-record event
from the unchanged original: the i-th dispatched event is a fresh copy of
the original fields computed from the original's full record list, its
`Records` holds exactly record i, and every other top-level field reads
the same as on the original event. -/
theorem c10_fanout_preserves_original (ps : List ParserSpec) (jp : String → Except String JSVal)
    (sink : JSVal → Except String Unit) (fs : List (String × JSVal)) (rs : List JSVal)
    (hok : ∀ m, sink m = Except.ok ())
    (hrec : List.lookup "Records" fs = some (JSVal.arr rs))
    (hlen : 1 < rs.length) (i : Nat) (hi : i < rs.length) :
    ((handler ps jp sink (JSVal.obj fs)).dispatched.get? i
        = some (assignRecords (JSVal.obj fs) (JSVal.arr [rs.get ⟨i, hi⟩])))
      ∧ getField (assignRecords (JSVal.obj fs) (JSVal.arr [rs.get ⟨i, hi⟩])) "Records"
          = Except.ok (JSVal.arr [rs.get ⟨i, hi⟩])
      ∧ (∀ k2, k2 ≠ "Records" →
          getField (assignRecords (JSVal.obj fs) (JSVal.arr [rs.get ⟨i, hi⟩])) k2
            = getField (JSVal.obj fs) k2) := by
  have hdisp : (handler ps jp sink (JSVal.obj fs)).dispatched
      = rs.map (fun r => assignRecords (JSVal.obj fs) (JSVal.arr [r])) := by
    show (handlerCore ps sink (JSVal.obj fs)).dispatched = _
    unfold handlerCore
    simp only [getField, hrec, Option.getD]
    rw [if_pos hlen]
    exact fanoutLoop_dispatched ps sink hok (JSVal.obj fs) rs 0 none
  refine ⟨?_, ?_, ?_⟩
  · rw [hdisp, List.get?_map, List.get?_eq_get hi]
    rfl
  · simp [assignRecords, getField, lookup_setKey_self]
  · intro k2 hk2
    simp [assignRecords, getField, lookup_setKey_other fs "Records" k2 _ hk2]

/-- Witness for C10: record 0 of the two-record event is dispatched as a
copy whose Records is the one-element sequence with record 0 and whose
src field reads as on the original. -/
theorem c10_fanout_preserves_original_witness :
    ((handler matchAllChain jpUnused sinkOk (JSVal.obj twoRecFields)).dispatched.get? 0
        = some (JSVal.obj [("Records", JSVal.arr [JSVal.num 1]), ("src", JSVal.str "sns")]))
      ∧ getField (assignRecords (JSVal.obj twoRecFields) (JSVal.arr [JSVal.num 1])) "src"
          = getField (JSVal.obj twoRecFields) "src" := by
  have h := c10_fanout_preserves_original matchAllChain jpUnused sinkOk twoRecFields
      [JSVal.num 1, JSVal.num 2] (fun _ => rfl) rfl (by decide) 0 (by decide)
  exact ⟨h.1, h.2.2 "src" (by decide)⟩
